import Mathlib

/-!
Verification of the netlock repository (Go sources).

A shallow embedding of the netlock killswitch tool.  The repository carries
two generations of the implementation:

* the current one: `netlock.go` (flag handling, verbatim destination tokens)
  together with `pf.go` (table-based pf ruleset, `PF` receiver);
* the historical macOS one: `src/unnamed/part_005` (resolving destination
  extractor, `addServer`) together with `osx_pf.go` (per-destination
  `inet`/`inet6` rules, here embedded as `OsxPF`).

External collaborators (the `pfctl` binary, the filesystem, name resolution,
the process user identity, the Go `regexp` engine) are modelled as oracle
parameters or as fields of an `Env` record; everything the repository's own
code does is translated directly from the source.
-/

set_option autoImplicit false

namespace Netlock

/-! ## String helpers (kernel-reducible models of Go stdlib calls) -/

/-- Model of Go `strings.Split(s, sep)` for a one-character separator:
split around every occurrence of the separator, keeping empty pieces. -/
def splitChar (sep : Char) : List Char → List (List Char)
  | [] => [[]]
  | c :: rest =>
    match splitChar sep rest with
    | [] => if c = sep then [[], []] else [[c]]
    | h :: t => if c = sep then [] :: h :: t else (c :: h) :: t

/-- Go `strings.Split(vals, ",")` on strings. -/
def splitComma (vals : String) : List String :=
  (splitChar ',' vals.data).map (fun cs => ⟨cs⟩)

/-- Drop leading whitespace characters. -/
def dropLeadingSpace : List Char → List Char
  | [] => []
  | c :: rest => if c.isWhitespace then dropLeadingSpace rest else c :: rest

/-- Model of Go `strings.TrimSpace`: remove leading and trailing whitespace. -/
def trimSpace (s : String) : String :=
  ⟨dropLeadingSpace ((dropLeadingSpace s.data.reverse).reverse)⟩

/-- Model of Go `strings.Contains(s, string(c))` for a one-character needle,
used for the `:` test selecting the address family. -/
def containsChar (s : String) (c : Char) : Bool :=
  s.data.contains c

/-- Model of Go `strings.ToLower` (ASCII case folding). -/
def toLowerStr (s : String) : String :=
  ⟨s.data.map Char.toLower⟩

/-- Does `needle` occur as a contiguous substring of the character list? -/
def hasSubstr (needle : List Char) : List Char → Bool
  | [] => needle.isEmpty
  | c :: rest => needle.isPrefixOf (c :: rest) || hasSubstr needle rest

/-- Model of Go `strings.Contains(hay, needle)`. -/
def containsSub (hay needle : String) : Bool :=
  hasSubstr needle.data hay.data

theorem data_append (s t : String) : (s ++ t).data = s.data ++ t.data := rfl

theorem take_append_of_le {α : Type} (n : Nat) (l1 l2 : List α)
    (h : n ≤ l1.length) : (l1 ++ l2).take n = l1.take n := by
  induction l1 generalizing n with
  | nil =>
    have : n = 0 := Nat.le_zero.mp h
    simp [this]
  | cons a t ih =>
    cases n with
    | zero => simp
    | succ m =>
      simp only [List.cons_append, List.take_succ_cons]
      rw [ih m (Nat.le_of_succ_le_succ h)]

theorem ne_of_take_ne (s t : String) (n : Nat)
    (h : s.data.take n ≠ t.data.take n) : s ≠ t :=
  fun he => h (by rw [he])

/-! ## Policy model and rule compiler, current generation (`pf.go`) -/

/-- The `PF` receiver of `pf.go`: the Policy fields plus the runtime-resolved
control-binary path `ctlPath`. -/
structure PF where
  ctlPath : String
  defaultConfigurationPath : String
  destinationsTableName : String
  allowIncoming : Bool
  allowOutgoing : Bool
  allowPrivateNetworks : Bool
  allowICMP : Bool
  destinations : List String
  interfaces : List String
  deriving DecidableEq, Repr

/-- `pfDefaultConfigurationPath` of `pf.go`. -/
def pfDefaultConfigurationPath : String := "/etc/pf.conf"

/-- `NewPF` of `pf.go`: empty path defaults to `/etc/pf.conf`; the table name
is the constant `allowed_destinations`. -/
def NewPF (defaultConfigurationPath : String) (allowIncoming allowOutgoing
    allowPrivateNetworks allowICMP : Bool)
    (destinations interfaces : List String) : PF :=
  { ctlPath := ""
    defaultConfigurationPath :=
      if defaultConfigurationPath = "" then pfDefaultConfigurationPath
      else defaultConfigurationPath
    destinationsTableName := "allowed_destinations"
    allowIncoming := allowIncoming
    allowOutgoing := allowOutgoing
    allowPrivateNetworks := allowPrivateNetworks
    allowICMP := allowICMP
    destinations := destinations
    interfaces := interfaces }

/-- `ipv4PrivateAddrs` literal of `pf.go` `BuildLockRules`. -/
def pfIpv4PrivateAddrs : List String := ["169.254/16", "192.168/16", "172.16/12", "10/8"]

/-- `ipv6PrivateAddrs` literal of `pf.go` `BuildLockRules`. -/
def pfIpv6PrivateAddrs : List String := ["fe80::/10", "fc00::/7"]

/-- The leading `table <...> { ... }` line of `pf.go` `BuildLockRules`. -/
def PF.tableLine (pf : PF) : String :=
  "table <" ++ (pf.destinationsTableName ++ ("> \x7b " ++
    (String.intercalate ", " pf.destinations ++ " \x7d")))

/-- The `set skip on { ... }` line of `pf.go` `BuildLockRules`: `lo0` plus the
policy interfaces, comma-joined, in insertion order. -/
def PF.skipLine (pf : PF) : String :=
  "set skip on \x7b " ++
    ((if pf.interfaces.length > 0 then
        "lo0, " ++ String.intercalate ", " pf.interfaces
      else "lo0") ++ " \x7d")

/-- The fixed private-network block of `pf.go` `BuildLockRules` (emitted iff
`allowPrivateNetworks`): self-pass rules for the four IPv4 ranges, the IPv4
multicast/broadcast rule, then the IPv6 analogues. -/
def pfPrivateLines : List String :=
  pfIpv4PrivateAddrs.map (fun a => "pass quick from " ++ (a ++ (" to " ++ a)))
  ++ ["pass out quick from \x7b " ++ (String.intercalate ", " pfIpv4PrivateAddrs ++
        " \x7d to \x7b 224/24, 255.255.255.255/32 \x7d")]
  ++ pfIpv6PrivateAddrs.map (fun a => "pass quick from " ++ (a ++ (" to " ++ a)))
  ++ ["pass out quick from \x7b " ++ (String.intercalate ", " pfIpv6PrivateAddrs ++
        " \x7d to \x7b ff02::/16, ff12::/16 \x7d")]

/-- The ICMP line of `pf.go` `BuildLockRules`. -/
def pfIcmpLine : String := "pass quick proto \x7b icmp, icmp6 \x7d all"

/-- The final pass-out-to-table rule of `pf.go` `BuildLockRules`. -/
def PF.destLine (pf : PF) : String :=
  "pass out quick from any to <" ++ (pf.destinationsTableName ++ ">")

/-- `pf.go` `BuildLockRules` as the list of emitted lines, one list element
per `WriteString`/`Fprintf` of the source, in source order. -/
def PF.lockRuleLines (pf : PF) : List String :=
  [pf.tableLine,
   "set block-policy return",
   pf.skipLine,
   "scrub in all fragment reassemble",
   if pf.allowIncoming then "pass in all" else "block in all",
   if pf.allowOutgoing then "pass out all" else "block out all"]
  ++ (if pf.allowPrivateNetworks then pfPrivateLines else [])
  ++ (if pf.allowICMP then [pfIcmpLine] else [])
  ++ [pf.destLine]

/-- `pf.go` `BuildLockRules`: the ruleset text, each line newline-terminated. -/
def PF.BuildLockRules (pf : PF) : String :=
  String.join (pf.lockRuleLines.map (fun l => l ++ "\n"))

/-! ## Rule compiler, historical macOS generation (`osx_pf.go`) -/

/-- The `PF` receiver of `osx_pf.go` (renamed `OsxPF` here to coexist with the
current generation). -/
structure OsxPF where
  ctlPath : String
  defaultConfPath : String
  allowIncoming : Bool
  allowOutgoing : Bool
  allowPrivateNetwork : Bool
  allowICMP : Bool
  ips : List String
  interfaces : List String
  deriving DecidableEq, Repr

/-- The `set skip on { ... }` line of `osx_pf.go`: `lo0` plus the interfaces,
space-joined, in insertion order. -/
def OsxPF.skipLine (pf : OsxPF) : String :=
  "set skip on \x7b " ++
    ((if pf.interfaces.length > 0 then
        "lo0 " ++ String.intercalate " " pf.interfaces
      else "lo0") ++ " \x7d")

/-- The fixed private-network block of `osx_pf.go` `BuildLockRules`. -/
def osxPrivateLines : List String :=
  ["pass out quick inet from 192.168.0.0/16 to 192.168.0.0/16",
   "pass in quick inet from 192.168.0.0/16 to 192.168.0.0/16",
   "pass out quick inet from 172.16.0.0/12 to 172.16.0.0/12",
   "pass in quick inet from 172.16.0.0/12 to 172.16.0.0/12",
   "pass out quick inet from 10.0.0.0/8 to 10.0.0.0/8",
   "pass in quick inet from 10.0.0.0/8 to 10.0.0.0/8",
   "pass out quick inet from 192.168.0.0/16 to 224.0.0.0/24",
   "pass out quick inet from 172.16.0.0/12 to 224.0.0.0/24",
   "pass out quick inet from 10.0.0.0/8 to 224.0.0.0/24",
   "pass out quick inet from 192.168.0.0/16 to 239.255.255.250/32",
   "pass out quick inet from 172.16.0.0/12 to 239.255.255.250/32",
   "pass out quick inet from 10.0.0.0/8 to 239.255.255.250/32",
   "pass out quick inet from 192.168.0.0/16 to 239.255.255.253/32",
   "pass out quick inet from 172.16.0.0/12 to 239.255.255.253/32",
   "pass out quick inet from 10.0.0.0/8 to 239.255.255.253/32",
   "pass out quick inet6 from fe80::/10 to fe80::/10",
   "pass in quick inet6 from fe80::/10 to fe80::/10",
   "pass out quick inet6 from ff00::/8 to ff00::/8",
   "pass in quick inet6 from ff00::/8 to ff00::/8"]

/-- The ICMP lines of `osx_pf.go` `BuildLockRules`. -/
def osxIcmpLines : List String :=
  ["pass quick proto icmp", "pass quick proto icmp6 all"]

/-- The per-destination rule of `osx_pf.go` (`ipRuleTmpl` instantiation):
`inet6` when the address string contains a colon, `inet` otherwise. -/
def osxDestRule (ip : String) : String :=
  "pass out quick " ++
    ((if containsChar ip ':' then "inet6" else "inet") ++
      (" from any to " ++ ip))

/-- `osx_pf.go` `BuildLockRules` as the list of emitted lines, in source
order: no table line, and one trailing pass-out rule per destination. -/
def OsxPF.lockRuleLines (pf : OsxPF) : List String :=
  ["set block-policy return",
   pf.skipLine,
   "scrub in all",
   if pf.allowIncoming then "pass in all" else "block in all",
   if pf.allowOutgoing then "pass out all" else "block out all"]
  ++ (if pf.allowPrivateNetwork then osxPrivateLines else [])
  ++ (if pf.allowICMP then osxIcmpLines else [])
  ++ pf.ips.map osxDestRule

/-- `osx_pf.go` `BuildLockRules`: the ruleset text. -/
def OsxPF.BuildLockRules (pf : OsxPF) : String :=
  String.join (pf.lockRuleLines.map (fun l => l ++ "\n"))

/-! ## Destination extractors

The Go `regexp` engine used to pull a candidate token out of a configuration
file line, the `net.ParseIP` literal-address test and the `net.LookupIP`
system resolver are external collaborators; they enter as oracle parameters
`extract`, `parseIP` and `lookupIP`.  `lookupIP tok = none` models a
resolution error, `lookupIP tok = some addrs` a successful resolution to the
string forms of all returned addresses. -/

/-- `setMultiple` of `netlock.go`: split the flag value on commas, trim each
piece, append every resulting token to the accumulator. -/
def setMultiple (dest : List String) (vals : String) : List String :=
  (splitComma vals).foldl (fun d v => d ++ [trimSpace v]) dest

/-- `flagFilesType.Set` of `netlock.go` (the current generation), on the list
of scanned lines: every line from which the regexp extracts a token has that
token appended verbatim to the destination list; no resolution is attempted
and no error is possible beyond I/O. -/
def filesSetVerbatim (extract : String → Option String) :
    List String → List String → List String
  | dest, [] => dest
  | dest, line :: rest =>
    match extract line with
    | none => filesSetVerbatim extract dest rest
    | some tok => filesSetVerbatim extract (dest ++ [tok]) rest

/-- `addServer` of `src/unnamed/part_005` (the historical generation): a
literal IP is appended verbatim; otherwise the token is resolved and all
resolved addresses are appended; a resolution error is returned to the flag
package, which aborts the invocation. -/
def addServer (parseIP : String → Bool) (lookupIP : String → Option (List String))
    (flagServers : List String) (s : String) : Except String (List String) :=
  if parseIP s then .ok (flagServers ++ [s])
  else
    match lookupIP s with
    | none => .error s
    | some addrs => .ok (flagServers ++ addrs)

/-- `flagFilesType.Set` of `src/unnamed/part_005`, on the list of scanned
lines: each extracted token goes through `addServer`; the first failing
token aborts the whole call with an error. -/
def filesSetResolve (parseIP : String → Bool)
    (lookupIP : String → Option (List String))
    (extract : String → Option String) :
    List String → List String → Except String (List String)
  | servers, [] => .ok servers
  | servers, line :: rest =>
    match extract line with
    | none => filesSetResolve parseIP lookupIP extract servers rest
    | some tok =>
      match addServer parseIP lookupIP servers tok with
      | .error e => .error e
      | .ok servers2 => filesSetResolve parseIP lookupIP extract servers2 rest

/-- The contribution of one extracted token to the destination list when
extraction succeeds: the token itself for an IP literal, otherwise all of
its resolved addresses. -/
def tokenContrib (parseIP : String → Bool)
    (lookupIP : String → Option (List String)) (t : String) : List String :=
  if parseIP t then [t] else (lookupIP t).getD []

/-! ## Lock controller (`pf.go`: `preconfig`, `EnableLock`, `DisableLock`)

Each `log.Fatal` exit of the source is a `Fatal` value; every externally
visible action (a `pfctl` invocation, a temporary-file operation) is recorded
as an `Event` so that ordering and cleanup claims can be stated.  The
operating system enters through an `Env` record of oracles. -/

/-- The fatal-exit sites of `pf.go` and `utils.go`. -/
inductive Fatal where
  | lookPathFailed
  | statFailed (path : String)
  | userFailed
  | notRoot
  | execFailed
  | pfDisabled
  | tempFileFailed
  | writeFailed
  | closeFailed
  deriving DecidableEq, Repr

/-- Externally visible actions of one invocation, in order of occurrence. -/
inductive Event where
  | execCall (bin : String) (args : List String)
  | tmpCreate (name : String)
  | tmpWrite (name : String) (content : String)
  | tmpClose (name : String)
  | tmpRemove (name : String)
  deriving DecidableEq, Repr

/-- The operating-system oracles consumed by one invocation. -/
structure Env where
  /-- `exec.LookPath("pfctl")`: `none` models a lookup error. -/
  lookPathPfctl : Option String
  /-- `os.Stat(path)` returns an error for this path. -/
  statFails : String → Bool
  /-- `user.Current().Uid`: `none` models a `user.Current` error. -/
  currentUserUid : Option String
  /-- `exec.Command(bin, args...).CombinedOutput()`: error or combined output. -/
  exec : String → List String → Except String String
  /-- `ioutil.TempFile("", "netlock.*.conf")`: `none` models a creation error,
  otherwise the fresh file's name. -/
  tempFile : Option String
  /-- `tmpf.WriteString` returns an error. -/
  writeFails : Bool
  /-- `tmpf.Close` returns an error. -/
  closeFails : Bool

/-- `isRoot` (utils variant used by `pf.go`): surfaces the `user.Current`
error, otherwise compares the uid with `"0"`. -/
def isRoot (env : Env) : Except Fatal Bool :=
  match env.currentUserUid with
  | none => .error .userFailed
  | some uid => .ok (uid = "0")

/-- `mustExec` of `pf.go`: run `pfctl` with the given arguments; a non-zero
exit is fatal.  The invocation itself is recorded as an event. -/
def PF.mustExec (pf : PF) (env : Env) (args : List String) :
    Except Fatal String × List Event :=
  match env.exec pf.ctlPath args with
  | .error _ => (.error .execFailed, [.execCall pf.ctlPath args])
  | .ok out => (.ok out, [.execCall pf.ctlPath args])

/-- `isEnabled` of `pf.go`: the lowercased `pfctl -s info` output must
contain `status: enabled`. -/
def PF.isEnabled (pf : PF) (env : Env) : Except Fatal Bool × List Event :=
  match pf.mustExec env ["-s", "info"] with
  | (.error e, ev) => (.error e, ev)
  | (.ok out, ev) => (.ok (containsSub (toLowerStr out) "status: enabled"), ev)

/-- `preconfig` of `pf.go`, in source order: resolve `pfctl` on the search
path (writing `ctlPath`), `stat` the default configuration path, check the
effective user is root, check the packet filter is enabled.  The first
failure aborts. -/
def PF.preconfig (pf : PF) (env : Env) : Except Fatal PF × List Event :=
  match env.lookPathPfctl with
  | none => (.error .lookPathFailed, [])
  | some ctlPath =>
    let pf2 : PF := { pf with ctlPath := ctlPath }
    if env.statFails pf2.defaultConfigurationPath then
      (.error (.statFailed pf2.defaultConfigurationPath), [])
    else
      match isRoot env with
      | .error e => (.error e, [])
      | .ok isRootResult =>
        if !isRootResult then (.error .notRoot, [])
        else
          match pf2.isEnabled env with
          | (.error e, ev) => (.error e, ev)
          | (.ok en, ev) =>
            if !en then (.error .pfDisabled, ev) else (.ok pf2, ev)

/-- `makeLockConfiguration` of `pf.go`: create a temporary file, write the
compiled ruleset into it, close it, return its name.  Only on a write error
is the file removed before the fatal exit; a close error exits without
removing it. -/
def PF.makeLockConfiguration (pf : PF) (env : Env) :
    Except Fatal String × List Event :=
  match env.tempFile with
  | none => (.error .tempFileFailed, [])
  | some name =>
    if env.writeFails then
      (.error .writeFailed, [.tmpCreate name, .tmpClose name, .tmpRemove name])
    else if env.closeFails then
      (.error .closeFailed, [.tmpCreate name, .tmpWrite name pf.BuildLockRules])
    else
      (.ok name,
       [.tmpCreate name, .tmpWrite name pf.BuildLockRules, .tmpClose name])

/-- `loadConfiguration` of `pf.go`: `pfctl -F all -f path`, the only mutating
engine call. -/
def PF.loadConfiguration (pf : PF) (env : Env) (path : String) :
    Except Fatal String × List Event :=
  pf.mustExec env ["-F", "all", "-f", path]

/-- `EnableLock` of `pf.go`: preconditions, then write the compiled ruleset
to a temporary file, then load it.  Returns the final receiver state and the
event trace. -/
def PF.EnableLock (pf : PF) (env : Env) : Except Fatal PF × List Event :=
  match pf.preconfig env with
  | (.error e, ev) => (.error e, ev)
  | (.ok pf2, ev) =>
    match pf2.makeLockConfiguration env with
    | (.error e, ev2) => (.error e, ev ++ ev2)
    | (.ok path, ev2) =>
      match pf2.loadConfiguration env path with
      | (.error e, ev3) => (.error e, ev ++ (ev2 ++ ev3))
      | (.ok _, ev3) => (.ok pf2, ev ++ (ev2 ++ ev3))

/-- `DisableLock` of `pf.go`: preconditions, then load the default
configuration path. -/
def PF.DisableLock (pf : PF) (env : Env) : Except Fatal PF × List Event :=
  match pf.preconfig env with
  | (.error e, ev) => (.error e, ev)
  | (.ok pf2, ev) =>
    match pf2.loadConfiguration env pf2.defaultConfigurationPath with
    | (.error e, ev2) => (.error e, ev ++ ev2)
    | (.ok _, ev2) => (.ok pf2, ev ++ ev2)

/-- Is this event the mutating `pfctl ... -f ...` load call? -/
def isLoadCall : Event → Bool
  | .execCall _ args => args.contains "-f"
  | _ => false

/-- Did `pfctl -s info` run without error (given the binary path the source
would use)? -/
def execInfoOk (env : Env) : Bool :=
  match env.exec (env.lookPathPfctl.getD "") ["-s", "info"] with
  | .ok _ => true
  | .error _ => false

/-- Does the `pfctl -s info` output report the packet filter enabled? -/
def infoSaysEnabled (env : Env) : Bool :=
  match env.exec (env.lookPathPfctl.getD "") ["-s", "info"] with
  | .ok out => containsSub (toLowerStr out) "status: enabled"
  | .error _ => false

/-- The precondition checks of `pf.go` `preconfig` in the order the source
evaluates them, each paired with the fatal error its failure produces:
control binary on the search path, default configuration path present,
user identity available, user is root, status query succeeds, packet filter
enabled. -/
def precondChecks (pf : PF) (env : Env) : List (Bool × Fatal) :=
  [(env.lookPathPfctl.isSome, Fatal.lookPathFailed),
   (!env.statFails pf.defaultConfigurationPath,
     Fatal.statFailed pf.defaultConfigurationPath),
   (env.currentUserUid.isSome, Fatal.userFailed),
   (decide (env.currentUserUid = some "0"), Fatal.notRoot),
   (execInfoOk env, Fatal.execFailed),
   (infoSaysEnabled env, Fatal.pfDisabled)]

/-- The first failing check, if any. -/
def firstFailure : List (Bool × Fatal) → Option Fatal
  | [] => none
  | (ok, e) :: rest => if ok then firstFailure rest else some e

/-! ## Concrete sample values used by counterexamples and witnesses -/

/-- Scenario C policy: two destinations, one IPv4 and one IPv6. -/
def pfScenC : PF :=
  NewPF "" false false false false ["9.9.9.9", "2001:4860:4860::8888"] []

/-- A policy with the private-network flag set and nothing else. -/
def pfPrivOn : PF := NewPF "" false false true false [] []

/-- A policy with the private-network flag cleared and nothing else. -/
def pfPrivOff : PF := NewPF "" false false false false [] []

/-- A small base policy. -/
def pfBase : PF := NewPF "" false false false false ["9.9.9.9"] ["utun0"]

/-- `pfBase` after `preconfig` has resolved the control binary. -/
def pfBaseConfigured : PF := { pfBase with ctlPath := "/sbin/pfctl" }

/-- An environment in which every precondition holds and every filesystem
and engine operation succeeds. -/
def envAllOk : Env :=
  { lookPathPfctl := some "/sbin/pfctl"
    statFails := fun _ => false
    currentUserUid := some "0"
    exec := fun _ _ => .ok "Status: Enabled"
    tempFile := some "/tmp/netlock.942.conf"
    writeFails := false
    closeFails := false }

/-- An environment in which the default configuration path is missing AND
the caller is not root: the two preconditions the spec orders one way and
the code the other. -/
def envStatFailNonRoot : Env :=
  { lookPathPfctl := some "/sbin/pfctl"
    statFails := fun _ => true
    currentUserUid := some "501"
    exec := fun _ _ => .ok "Status: Enabled"
    tempFile := some "/tmp/netlock.942.conf"
    writeFails := false
    closeFails := false }

/-- Two policies that agree on every Policy field but differ in the
runtime-only fields (`ctlPath`, `defaultConfigurationPath`). -/
def pfVarA : PF := NewPF "" true false true true ["9.9.9.9"] ["en0"]

/-- See `pfVarA`. -/
def pfVarB : PF :=
  { pfVarA with
    ctlPath := "/sbin/pfctl"
    defaultConfigurationPath := "/tmp/other.conf" }

/-- Oracle for the `regexp` token extraction, fixed on two concrete lines. -/
def cExtract : String → Option String := fun line =>
  if line = "remote vpn.example.com 1194 udp" then some "vpn.example.com"
  else if line = "remote fail.example.net 1194 udp" then some "fail.example.net"
  else none

/-- Oracle for `net.ParseIP(s) != nil`, fixed on one concrete literal. -/
def cParseIP : String → Bool := fun s => s == "9.9.9.9"

/-- A resolver on which every hostname fails. -/
def cLookupFail : String → Option (List String) := fun _ => none

/-- A resolver that resolves `vpn.example.com` to `203.0.113.5`. -/
def cLookupOk : String → Option (List String) := fun t =>
  if t = "vpn.example.com" then some ["203.0.113.5"] else none

/-! ## Shared helper lemmas -/

theorem foldl_append_trim (l : List String) (dest : List String) :
    l.foldl (fun d v => d ++ [trimSpace v]) dest = dest ++ l.map trimSpace := by
  induction l generalizing dest with
  | nil => simp
  | cons a t ih => simp [List.foldl_cons, ih, List.append_assoc]

/-! ## Claim C4 -/

/-- Claim C4 (confirmed): the rule compiler of `pf.go` is deterministic and
its output depends only on the Policy fields (table name, the four allow
flags, destinations, interfaces); two `PF` values agreeing on those fields
— even if they differ in the runtime fields `ctlPath` and
`defaultConfigurationPath` — compile to byte-identical ruleset text. -/
theorem c4_theorem (p q : PF)
    (h1 : p.destinationsTableName = q.destinationsTableName)
    (h2 : p.allowIncoming = q.allowIncoming)
    (h3 : p.allowOutgoing = q.allowOutgoing)
    (h4 : p.allowPrivateNetworks = q.allowPrivateNetworks)
    (h5 : p.allowICMP = q.allowICMP)
    (h6 : p.destinations = q.destinations)
    (h7 : p.interfaces = q.interfaces) :
    PF.BuildLockRules p = PF.BuildLockRules q := by
  simp [PF.BuildLockRules, PF.lockRuleLines, PF.tableLine, PF.skipLine,
    PF.destLine, h1, h2, h3, h4, h5, h6, h7]

/-- Witness for C4: two concrete policies differing only in the runtime
fields compile identically. -/
theorem c4_witness : PF.BuildLockRules pfVarA = PF.BuildLockRules pfVarB :=
  c4_theorem pfVarA pfVarB rfl rfl rfl rfl rfl rfl rfl

/-! ## Claim C10 -/

/-- Claim C10 (confirmed): `setMultiple` splits the flag value on commas,
trims surrounding whitespace from each piece and appends every resulting
token — including empty tokens produced by adjacent or trailing commas —
verbatim and unvalidated; the destination list is then emitted verbatim,
comma-joined, into the leading `table <allowed_destinations> { ... }` line
of the compiled ruleset. -/
theorem c10_theorem :
    (∀ (dest : List String) (vals : String),
        setMultiple dest vals = dest ++ (splitComma vals).map trimSpace)
  ∧ setMultiple [] "a,,b , c " = ["a", "", "b", "c"]
  ∧ (∀ pf : PF, (PF.lockRuleLines pf).head? = some pf.tableLine)
  ∧ (∀ pf : PF, pf.tableLine =
      "table <" ++ (pf.destinationsTableName ++ ("> \x7b " ++
        (String.intercalate ", " pf.destinations ++ " \x7d")))) := by
  refine ⟨fun dest vals => foldl_append_trim _ _, by decide, fun _ => rfl, fun _ => rfl⟩

/-! ## Claim C5 -/

/-- Counterexample for C5: in the current compiler (`pf.go`) the first line
of the compiled ruleset is the destinations table directive, not the
`block-policy return` directive the claim puts first. -/
theorem c5_counterexample :
    (PF.lockRuleLines pfScenC).head? ≠ some "set block-policy return"
  ∧ (PF.lockRuleLines pfScenC).head? =
      some "table <allowed_destinations> \x7b 9.9.9.9, 2001:4860:4860::8888 \x7d" := by
  exact ⟨by decide, by decide⟩

/-- Claim C5 (corrected): the fixed template order.  In the current
compiler (`pf.go`) the ruleset starts with the destinations table
directive and only then follows the claimed order: `block-policy return`,
the skip directive (loopback plus every policy interface in insertion
order), the scrub directive, the default inbound line, the default
outbound line.  In the historical macOS compiler (`osx_pf.go`) the
`block-policy return` directive is first, exactly as the claim states. -/
theorem c5_theorem :
    (∀ pf : PF, ∃ rest, PF.lockRuleLines pf =
      pf.tableLine :: "set block-policy return" :: pf.skipLine ::
      "scrub in all fragment reassemble" ::
      (if pf.allowIncoming then "pass in all" else "block in all") ::
      (if pf.allowOutgoing then "pass out all" else "block out all") :: rest)
  ∧ (∀ pf : OsxPF, ∃ rest, OsxPF.lockRuleLines pf =
      "set block-policy return" :: pf.skipLine :: "scrub in all" ::
      (if pf.allowIncoming then "pass in all" else "block in all") ::
      (if pf.allowOutgoing then "pass out all" else "block out all") :: rest) :=
  ⟨fun _ => ⟨_, rfl⟩, fun _ => ⟨_, rfl⟩⟩

/-! ## Claim C2 -/

/-- Counterexample for C2: for destinations `9.9.9.9` and
`2001:4860:4860::8888` the current compiler (`pf.go`) does NOT end with an
`inet` and an `inet6` per-destination pass-out rule; its final two lines
are the default outbound block and a single pass-out rule referencing the
destinations table. -/
theorem c2_counterexample :
    (PF.lockRuleLines pfScenC).drop ((PF.lockRuleLines pfScenC).length - 2) ≠
      ["pass out quick inet from any to 9.9.9.9",
       "pass out quick inet6 from any to 2001:4860:4860::8888"]
  ∧ (PF.lockRuleLines pfScenC).drop ((PF.lockRuleLines pfScenC).length - 2) =
      ["block out all", "pass out quick from any to <allowed_destinations>"] := by
  exact ⟨by decide, by decide⟩

/-- Claim C2 (corrected): the historical macOS compiler (`osx_pf.go`) ends
its ruleset with one pass-out rule per destination, in list order, each
qualified `inet6` iff the destination string contains a colon (so for
`9.9.9.9` and `2001:4860:4860::8888` the final two lines are the `inet`
rule then the `inet6` rule); the current compiler (`pf.go`) instead ends
with a single unqualified pass-out rule referencing the destinations
table. -/
theorem c2_theorem :
    (∀ pf : OsxPF, ∃ pre, OsxPF.lockRuleLines pf = pre ++ pf.ips.map osxDestRule)
  ∧ osxDestRule "9.9.9.9" = "pass out quick inet from any to 9.9.9.9"
  ∧ osxDestRule "2001:4860:4860::8888" =
      "pass out quick inet6 from any to 2001:4860:4860::8888"
  ∧ (∀ pf : PF, ∃ pre, PF.lockRuleLines pf = pre ++ [pf.destLine]) :=
  ⟨fun _ => ⟨_, rfl⟩, by decide, by decide, fun _ => ⟨_, rfl⟩⟩

/-! ## Claim C8 -/

/-- Claim C8 (confirmed): for every policy and every combination of allow
flags, the destination pass-out rules come strictly after the default
inbound/outbound directives and after the private-network and ICMP blocks:
in `osx_pf.go` the per-destination rules are the final segment, in `pf.go`
the single table-referencing pass-out rule is the final line. -/
theorem c8_theorem :
    (∀ pf : OsxPF, ∃ pre, OsxPF.lockRuleLines pf = pre ++ pf.ips.map osxDestRule
      ∧ (if pf.allowIncoming then "pass in all" else "block in all") ∈ pre
      ∧ (if pf.allowOutgoing then "pass out all" else "block out all") ∈ pre
      ∧ List.Sublist (if pf.allowPrivateNetwork then osxPrivateLines else []) pre
      ∧ List.Sublist (if pf.allowICMP then osxIcmpLines else []) pre)
  ∧ (∀ pf : PF, ∃ pre, PF.lockRuleLines pf = pre ++ [pf.destLine]
      ∧ (if pf.allowIncoming then "pass in all" else "block in all") ∈ pre
      ∧ (if pf.allowOutgoing then "pass out all" else "block out all") ∈ pre
      ∧ List.Sublist (if pf.allowPrivateNetworks then pfPrivateLines else []) pre
      ∧ List.Sublist (if pf.allowICMP then [pfIcmpLine] else []) pre) := by
  constructor
  · intro pf
    refine ⟨_, rfl, by simp, by simp, ?_, ?_⟩
    · exact (List.sublist_append_right _ _).trans (List.sublist_append_left _ _)
    · exact List.sublist_append_right _ _
  · intro pf
    refine ⟨_, rfl, by simp, by simp, ?_, ?_⟩
    · exact (List.sublist_append_right _ _).trans (List.sublist_append_left _ _)
    · exact List.sublist_append_right _ _

/-! ## Claim C7 -/

theorem tableLine_take_one (pf : PF) : (PF.tableLine pf).data.take 1 = ['t'] := by
  unfold PF.tableLine
  rw [data_append, take_append_of_le 1 _ _ (by decide)]
  decide

theorem skipLine_take_one (pf : PF) : (PF.skipLine pf).data.take 1 = ['s'] := by
  unfold PF.skipLine
  rw [data_append, take_append_of_le 1 _ _ (by decide)]
  decide

theorem destLine_take (pf : PF) :
    (PF.destLine pf).data.take 21 = ("pass out quick from any to <" : String).data.take 21 := by
  unfold PF.destLine
  rw [data_append, take_append_of_le 21 _ _ (by decide)]

theorem priv_take_one : ∀ l ∈ pfPrivateLines, l.data.take 1 = ['p'] := by decide

theorem priv_take_21 : ∀ l ∈ pfPrivateLines,
    l.data.take 21 ≠ ("pass out quick from any to <" : String).data.take 21 := by decide

theorem priv_ne_closed : ∀ l ∈ pfPrivateLines,
    l ≠ "set block-policy return" ∧ l ≠ "scrub in all fragment reassemble"
  ∧ l ≠ "pass in all" ∧ l ≠ "block in all"
  ∧ l ≠ "pass out all" ∧ l ≠ "block out all" ∧ l ≠ pfIcmpLine := by decide

/-- Counterexample for C7: with the private-network flag set, the compiled
ruleset's multicast rule targets `224/24` (the first /24 of the multicast
space), not the `224/8` range the claim names; the claimed `224/8` line
never occurs. -/
theorem c7_counterexample :
    pfPrivOn.allowPrivateNetworks = true
  ∧ "pass out quick from \x7b 169.254/16, 192.168/16, 172.16/12, 10/8 \x7d to \x7b 224/8, 255.255.255.255/32 \x7d"
      ∉ PF.lockRuleLines pfPrivOn
  ∧ "pass out quick from \x7b 169.254/16, 192.168/16, 172.16/12, 10/8 \x7d to \x7b 224/24, 255.255.255.255/32 \x7d"
      ∈ PF.lockRuleLines pfPrivOn :=
  ⟨rfl, by decide, by decide⟩

/-- Claim C7 (corrected): in the current compiler (`pf.go`), iff
`allowPrivateNetworks` is set the ruleset contains exactly the fixed
private-network block — self-pass rules for link-local 169.254/16,
192.168/16, 172.16/12 and 10/8 in that order, then one outbound-only rule
from those ranges to `224/24` (not `224/8`) and the limited broadcast
address, then the IPv6 analogues for fe80::/10 and fc00::/7 — with these
CIDR constants and their order independent of every other Policy flag;
when the flag is cleared none of these lines occurs anywhere in the
output. -/
theorem c7_theorem (pf : PF) :
    (pf.allowPrivateNetworks = true →
      PF.lockRuleLines pf =
        [pf.tableLine, "set block-policy return", pf.skipLine,
         "scrub in all fragment reassemble",
         if pf.allowIncoming then "pass in all" else "block in all",
         if pf.allowOutgoing then "pass out all" else "block out all"]
        ++ pfPrivateLines
        ++ (if pf.allowICMP then [pfIcmpLine] else [])
        ++ [pf.destLine])
  ∧ (pf.allowPrivateNetworks = false →
      ∀ l ∈ pfPrivateLines, l ∉ PF.lockRuleLines pf)
  ∧ pfPrivateLines =
      ["pass quick from 169.254/16 to 169.254/16",
       "pass quick from 192.168/16 to 192.168/16",
       "pass quick from 172.16/12 to 172.16/12",
       "pass quick from 10/8 to 10/8",
       "pass out quick from \x7b 169.254/16, 192.168/16, 172.16/12, 10/8 \x7d to \x7b 224/24, 255.255.255.255/32 \x7d",
       "pass quick from fe80::/10 to fe80::/10",
       "pass quick from fc00::/7 to fc00::/7",
       "pass out quick from \x7b fe80::/10, fc00::/7 \x7d to \x7b ff02::/16, ff12::/16 \x7d"] := by
  refine ⟨fun h => by simp [PF.lockRuleLines, h], ?_, by decide⟩
  intro h l hl hmem
  have hne := priv_ne_closed l hl
  have htab : l ≠ pf.tableLine :=
    ne_of_take_ne l pf.tableLine 1
      (by rw [priv_take_one l hl, tableLine_take_one]; decide)
  have hskip : l ≠ pf.skipLine :=
    ne_of_take_ne l pf.skipLine 1
      (by rw [priv_take_one l hl, skipLine_take_one]; decide)
  have hdest : l ≠ pf.destLine :=
    ne_of_take_ne l pf.destLine 21 (by rw [destLine_take]; exact priv_take_21 l hl)
  simp only [PF.lockRuleLines, h, if_false, Bool.false_eq_true, List.append_nil,
    List.mem_append, List.mem_cons, List.not_mem_nil, or_false, false_or] at hmem
  rcases hmem with ((h1 | h2 | h3 | h4 | h5 | h6) | h7) | h8
  · exact htab h1
  · exact hne.1 h2
  · exact hskip h3
  · exact hne.2.1 h4
  · cases hin : pf.allowIncoming <;> rw [hin] at h5 <;> simp at h5
    · exact hne.2.2.2.1 h5
    · exact hne.2.2.1 h5
  · cases hout : pf.allowOutgoing <;> rw [hout] at h6 <;> simp at h6
    · exact hne.2.2.2.2.2.1 h6
    · exact hne.2.2.2.2.1 h6
  · cases hic : pf.allowICMP <;> rw [hic] at h7 <;> simp at h7
    exact hne.2.2.2.2.2.2 h7
  · exact hdest h8

/-- Witness for C7: the private block appears in full when the flag is set
and one of its lines is absent when the flag is cleared. -/
theorem c7_witness :
    (PF.lockRuleLines pfPrivOn =
      [pfPrivOn.tableLine, "set block-policy return", pfPrivOn.skipLine,
       "scrub in all fragment reassemble",
       if pfPrivOn.allowIncoming then "pass in all" else "block in all",
       if pfPrivOn.allowOutgoing then "pass out all" else "block out all"]
      ++ pfPrivateLines
      ++ (if pfPrivOn.allowICMP then [pfIcmpLine] else [])
      ++ [pfPrivOn.destLine])
  ∧ "pass quick from 10/8 to 10/8" ∉ PF.lockRuleLines pfPrivOff :=
  ⟨(c7_theorem pfPrivOn).1 rfl,
   (c7_theorem pfPrivOff).2.1 rfl "pass quick from 10/8 to 10/8" (by decide)⟩

/-! ## Claim C1 -/

/-- Counterexample for C1: the current generation's file handler
(`flagFilesType.Set` of `netlock.go`) performs no name resolution at all;
given a file whose extracted hostname token fails resolution under any
resolver, it does not abort — it yields a destination list containing the
token verbatim. -/
theorem c1_counterexample :
    cParseIP "fail.example.net" = false
  ∧ cLookupFail "fail.example.net" = none
  ∧ cExtract "remote fail.example.net 1194 udp" = some "fail.example.net"
  ∧ filesSetVerbatim cExtract [] ["remote fail.example.net 1194 udp"] =
      ["fail.example.net"] :=
  ⟨by decide, rfl, by decide, by decide⟩

/-- Claim C1 (corrected): the resolving extractor of the historical
generation (`flagFilesType.Set` + `addServer` of `src/unnamed/part_005`)
behaves as claimed: if any extracted token is neither an IP literal nor
resolvable, the whole call returns an error (so the invocation aborts and
no destination list is yielded), and on success every token contributes —
verbatim for an IP literal, and with all of its resolved addresses for a
hostname.  The current generation's handler instead appends tokens
verbatim without resolving (see the counterexample). -/
theorem c1_theorem (parseIP : String → Bool)
    (lookupIP : String → Option (List String))
    (extract : String → Option String)
    (servers : List String) (lines : List String) :
    ((∃ line ∈ lines, ∃ t, extract line = some t
        ∧ parseIP t = false ∧ lookupIP t = none) →
      ∃ err, filesSetResolve parseIP lookupIP extract servers lines = .error err)
  ∧ (∀ out, filesSetResolve parseIP lookupIP extract servers lines = .ok out →
      out = servers ++
        (lines.filterMap extract).flatMap (tokenContrib parseIP lookupIP)) := by
  induction lines generalizing servers with
  | nil =>
    constructor
    · rintro ⟨line, hline, -⟩
      exact absurd hline (List.not_mem_nil line)
    · intro out h
      simp only [filesSetResolve] at h
      cases h
      simp
  | cons line rest ih =>
    constructor
    · rintro ⟨l, hl, t, hex, hpf, hlf⟩
      rcases List.mem_cons.mp hl with rfl | hmem
      · exact ⟨t, by simp [filesSetResolve, hex, addServer, hpf, hlf]⟩
      · cases hex2 : extract line with
        | none =>
          simp only [filesSetResolve, hex2]
          exact (ih servers).1 ⟨l, hmem, t, hex, hpf, hlf⟩
        | some tok =>
          cases has : addServer parseIP lookupIP servers tok with
          | error e => exact ⟨e, by simp [filesSetResolve, hex2, has]⟩
          | ok s2 =>
            simp only [filesSetResolve, hex2, has]
            exact (ih s2).1 ⟨l, hmem, t, hex, hpf, hlf⟩
    · intro out h
      cases hex2 : extract line with
      | none =>
        simp only [filesSetResolve, hex2] at h
        rw [(ih servers).2 out h]
        simp [hex2]
      | some tok =>
        cases has : addServer parseIP lookupIP servers tok with
        | error e => simp [filesSetResolve, hex2, has] at h
        | ok s2 =>
          simp only [filesSetResolve, hex2, has] at h
          rw [(ih s2).2 out h]
          have hs2 : s2 = servers ++ tokenContrib parseIP lookupIP tok := by
            unfold addServer at has
            unfold tokenContrib
            cases hp : parseIP tok with
            | true =>
              rw [hp] at has
              simp at has
              simp [has]
            | false =>
              rw [hp] at has
              simp only [Bool.false_eq_true, if_false] at has ⊢
              cases hlk : lookupIP tok with
              | none => rw [hlk] at has; cases has
              | some addrs => rw [hlk] at has; simp at has; simp [has]
          rw [hs2]
          simp [hex2, List.append_assoc]

/-- Witness for C1: a file with an unresolvable hostname makes the
resolving extractor return an error, and with a resolving hostname the
output is exactly the resolved addresses. -/
theorem c1_witness :
    (∃ err, filesSetResolve cParseIP cLookupFail cExtract []
        ["remote fail.example.net 1194 udp"] = .error err)
  ∧ ["203.0.113.5"] = [] ++
      ((["remote vpn.example.com 1194 udp"].filterMap cExtract).flatMap
        (tokenContrib cParseIP cLookupOk)) :=
  ⟨(c1_theorem cParseIP cLookupFail cExtract [] _).1
      ⟨"remote fail.example.net 1194 udp", by decide, "fail.example.net",
        by decide, by decide, rfl⟩,
   (c1_theorem cParseIP cLookupOk cExtract [] _).2 ["203.0.113.5"] rfl⟩

/-! ## Controller helper lemmas -/

theorem preconfig_ok_shape (pf : PF) (env : Env) (pf2 : PF)
    (h : (PF.preconfig pf env).1 = .ok pf2) :
    pf2 = { pf with ctlPath := pf2.ctlPath } := by
  unfold PF.preconfig at h
  cases hlp : env.lookPathPfctl with
  | none => rw [hlp] at h; cases h
  | some ctl =>
    rw [hlp] at h
    simp only at h
    split at h
    · cases h
    · cases hroot : isRoot env with
      | error e => rw [hroot] at h; cases h
      | ok r =>
        rw [hroot] at h
        cases r with
        | false => simp at h
        | true =>
          simp only [Bool.not_true, Bool.false_eq_true, if_false] at h
          cases hen : (PF.isEnabled { pf with ctlPath := ctl } env) with
          | mk re ev =>
            rw [hen] at h
            cases re with
            | error e => cases h
            | ok en =>
              cases en with
              | false => simp at h
              | true =>
                simp at h
                rw [← h]

theorem preconfig_snd_shape (pf : PF) (env : Env) :
    (PF.preconfig pf env).2 = []
  ∨ ∃ c, (PF.preconfig pf env).2 = [Event.execCall c ["-s", "info"]] := by
  unfold PF.preconfig
  cases hlp : env.lookPathPfctl with
  | none => left; rfl
  | some ctl =>
    simp only
    split
    · left; rfl
    · cases hroot : isRoot env with
      | error e => left; rfl
      | ok r =>
        cases r with
        | false => left; simp
        | true =>
          simp only [Bool.not_true, Bool.false_eq_true, if_false]
          right
          unfold PF.isEnabled PF.mustExec
          cases hex : env.exec ctl ["-s", "info"] with
          | error msg => exact ⟨ctl, rfl⟩
          | ok out =>
            refine ⟨ctl, ?_⟩
            simp only
            split <;> rfl

theorem load_snd_shape (pf : PF) (env : Env) (path : String) :
    (PF.loadConfiguration pf env path).2 =
      [Event.execCall pf.ctlPath ["-F", "all", "-f", path]] := by
  unfold PF.loadConfiguration PF.mustExec
  cases env.exec pf.ctlPath ["-F", "all", "-f", path] <;> rfl

theorem make_remove_mem (pf : PF) (env : Env) (name : String) :
    (Event.tmpRemove name ∈ (PF.makeLockConfiguration pf env).2) ↔
      (env.tempFile = some name ∧ env.writeFails = true) := by
  unfold PF.makeLockConfiguration
  cases htf : env.tempFile with
  | none => simp
  | some n =>
    cases hw : env.writeFails with
    | false =>
      cases hc : env.closeFails with
      | false => simp
      | true => simp
    | true =>
      simp only [if_true]
      constructor
      · intro hmem
        simp at hmem
        simp [hmem]
      · intro ⟨h1, _⟩
        simp at h1
        simp [h1]

/-! ## Claim C9 -/

/-- Claim C9 (confirmed): no operation mutates the Policy fields after
construction — whenever `preconfig`, `EnableLock` or `DisableLock`
completes, the resulting receiver agrees with the initial one on every
field except the runtime-resolved `ctlPath`; `BuildLockRules` and
`isEnabled` take the receiver by value and return no modified receiver at
all, so every compiled ruleset is a function of the single constructed
Policy value. -/
theorem c9_theorem (pf : PF) (env : Env) (pf2 : PF) :
    ((PF.preconfig pf env).1 = .ok pf2 → pf2 = { pf with ctlPath := pf2.ctlPath })
  ∧ ((PF.EnableLock pf env).1 = .ok pf2 → pf2 = { pf with ctlPath := pf2.ctlPath })
  ∧ ((PF.DisableLock pf env).1 = .ok pf2 → pf2 = { pf with ctlPath := pf2.ctlPath }) := by
  refine ⟨preconfig_ok_shape pf env pf2, ?_, ?_⟩
  · intro h
    unfold PF.EnableLock at h
    cases hp : PF.preconfig pf env with
    | mk r ev =>
      rw [hp] at h
      cases r with
      | error e => simp at h
      | ok pf3 =>
        have hshape := preconfig_ok_shape pf env pf3 (by rw [hp])
        dsimp only at h
        cases hm : PF.makeLockConfiguration pf3 env with
        | mk rm evm =>
          rw [hm] at h
          cases rm with
          | error e => simp at h
          | ok path =>
            dsimp only at h
            cases hl : PF.loadConfiguration pf3 env path with
            | mk rl evl =>
              rw [hl] at h
              cases rl with
              | error e => simp at h
              | ok out =>
                simp at h
                rw [← h]
                exact hshape
  · intro h
    unfold PF.DisableLock at h
    cases hp : PF.preconfig pf env with
    | mk r ev =>
      rw [hp] at h
      cases r with
      | error e => simp at h
      | ok pf3 =>
        have hshape := preconfig_ok_shape pf env pf3 (by rw [hp])
        dsimp only at h
        cases hl : PF.loadConfiguration pf3 env pf3.defaultConfigurationPath with
        | mk rl evl =>
          rw [hl] at h
          cases rl with
          | error e => simp at h
          | ok out =>
            simp at h
            rw [← h]
            exact hshape

/-- Witness for C9: a concrete successful `EnableLock` run changes only
`ctlPath`. -/
theorem c9_witness :
    pfBaseConfigured = { pfBase with ctlPath := pfBaseConfigured.ctlPath } :=
  (c9_theorem pfBase envAllOk pfBaseConfigured).2.1 rfl

/-! ## Claim C6 -/

/-- Counterexample for C6: a fully successful `EnableLock` run creates the
temporary ruleset file and never removes it — the success exit path leaks
the file. -/
theorem c6_counterexample :
    (PF.EnableLock pfBase envAllOk).1 = .ok pfBaseConfigured
  ∧ Event.tmpCreate "/tmp/netlock.942.conf" ∈ (PF.EnableLock pfBase envAllOk).2
  ∧ Event.tmpRemove "/tmp/netlock.942.conf" ∉ (PF.EnableLock pfBase envAllOk).2 :=
  ⟨rfl, by decide, by decide⟩

/-- Claim C6 (corrected): `EnableLock` removes the temporary ruleset file
on exactly one exit path — the write-failure path of
`makeLockConfiguration`.  On success, and on the close-failure and
load-failure paths, the file is created but never removed. -/
theorem c6_theorem (pf : PF) (env : Env) (name : String) :
    (Event.tmpRemove name ∈ (PF.EnableLock pf env).2) ↔
      ((∃ pf2, (PF.preconfig pf env).1 = .ok pf2)
        ∧ env.tempFile = some name ∧ env.writeFails = true) := by
  unfold PF.EnableLock
  cases hp : PF.preconfig pf env with
  | mk r ev =>
    have hev : Event.tmpRemove name ∉ ev := by
      rcases preconfig_snd_shape pf env with h0 | ⟨c, h0⟩ <;>
        rw [hp] at h0 <;> simp at h0 <;> simp [h0]
    cases r with
    | error e =>
      dsimp only
      constructor
      · intro hm
        exact absurd hm hev
      · rintro ⟨⟨pf2, hok⟩, -, -⟩
        simp at hok
    | ok pf2 =>
      dsimp only
      cases hm : PF.makeLockConfiguration pf2 env with
      | mk rm evm =>
        have hevm : (Event.tmpRemove name ∈ evm) ↔
            (env.tempFile = some name ∧ env.writeFails = true) := by
          have h1 := make_remove_mem pf2 env name
          rw [hm] at h1
          exact h1
        cases rm with
        | error e =>
          dsimp only
          simp only [List.mem_append]
          constructor
          · rintro (h1 | h2)
            · exact absurd h1 hev
            · exact ⟨⟨pf2, rfl⟩, hevm.mp h2⟩
          · rintro ⟨-, hc1, hc2⟩
            exact Or.inr (hevm.mpr ⟨hc1, hc2⟩)
        | ok path =>
          dsimp only
          cases hl : PF.loadConfiguration pf2 env path with
          | mk rl evl =>
            have hevl : Event.tmpRemove name ∉ evl := by
              have h2 := load_snd_shape pf2 env path
              rw [hl] at h2
              simp at h2
              simp [h2]
            cases rl with
            | error e =>
              dsimp only
              simp only [List.mem_append]
              constructor
              · rintro (h1 | h2 | h3)
                · exact absurd h1 hev
                · exact ⟨⟨pf2, rfl⟩, hevm.mp h2⟩
                · exact absurd h3 hevl
              · rintro ⟨-, hc1, hc2⟩
                exact Or.inr (Or.inl (hevm.mpr ⟨hc1, hc2⟩))
            | ok out =>
              dsimp only
              simp only [List.mem_append]
              constructor
              · rintro (h1 | h2 | h3)
                · exact absurd h1 hev
                · exact ⟨⟨pf2, rfl⟩, hevm.mp h2⟩
                · exact absurd h3 hevl
              · rintro ⟨-, hc1, hc2⟩
                exact Or.inr (Or.inl (hevm.mpr ⟨hc1, hc2⟩))

/-! ## Claim C3 -/

theorem preconfig_filter_load (pf : PF) (env : Env) :
    (PF.preconfig pf env).2.filter isLoadCall = [] := by
  rcases preconfig_snd_shape pf env with h0 | ⟨c, h0⟩ <;>
    rw [h0] <;> simp [isLoadCall, List.filter]

/-- Counterexample for C3: in an environment where the default
configuration path is missing AND the caller is not root, `preconfig`
reports the missing path, not the missing privilege — so the path-existence
check runs before the superuser check, contradicting the claimed order
(binary, root, path, enabled). -/
theorem c3_counterexample :
    envStatFailNonRoot.lookPathPfctl.isSome = true
  ∧ envStatFailNonRoot.currentUserUid = some "501"
  ∧ "501" ≠ "0"
  ∧ (PF.preconfig pfBase envStatFailNonRoot).1 =
      .error (.statFailed "/etc/pf.conf")
  ∧ Fatal.statFailed "/etc/pf.conf" ≠ Fatal.notRoot :=
  ⟨rfl, rfl, by decide, rfl, by decide⟩

/-- Claim C3 (corrected): `EnableLock` and `DisableLock` evaluate their
preconditions in the order (1) control binary resolvable, (2)
default/baseline ruleset path exists, (3) effective caller is root, (4)
firewall engine enabled — i.e. with the path check BEFORE the root check,
not after it as claimed — each fatal on failure; the outcome of
`preconfig` is exactly the first failing check of `precondChecks` (whose
list order is the code's evaluation order), and when any precondition
fails no mutating `-f` load call is ever issued. -/
theorem c3_theorem (pf : PF) (env : Env) :
    ((PF.preconfig pf env).1 =
      match firstFailure (precondChecks pf env) with
      | some e => Except.error e
      | none => Except.ok { pf with ctlPath := env.lookPathPfctl.getD pf.ctlPath })
  ∧ (∀ e, (PF.preconfig pf env).1 = Except.error e →
      ((PF.EnableLock pf env).2.filter isLoadCall = []
        ∧ (PF.DisableLock pf env).2.filter isLoadCall = [])) := by
  constructor
  · unfold PF.preconfig precondChecks execInfoOk infoSaysEnabled
      isRoot PF.isEnabled PF.mustExec
    cases hlp : env.lookPathPfctl with
    | none => simp [firstFailure]
    | some ctl =>
      dsimp only
      cases hst : env.statFails pf.defaultConfigurationPath with
      | true => simp [firstFailure]
      | false =>
        cases huid : env.currentUserUid with
        | none => simp [firstFailure]
        | some uid =>
          by_cases h0 : uid = "0"
          · subst h0
            cases hex : env.exec ctl ["-s", "info"] with
            | error msg => simp [firstFailure, hex]
            | ok out =>
              cases hcs : containsSub (toLowerStr out) "status: enabled" <;>
                simp [firstFailure, hex, hcs]
          · simp [firstFailure, h0]
  · intro e he
    have h1 : (PF.EnableLock pf env).2 = (PF.preconfig pf env).2 := by
      unfold PF.EnableLock
      cases hp : PF.preconfig pf env with
      | mk r ev =>
        rw [hp] at he
        cases r with
        | error e2 => rfl
        | ok pf2 => exact absurd he (by simp)
    have h2 : (PF.DisableLock pf env).2 = (PF.preconfig pf env).2 := by
      unfold PF.DisableLock
      cases hp : PF.preconfig pf env with
      | mk r ev =>
        rw [hp] at he
        cases r with
        | error e2 => rfl
        | ok pf2 => exact absurd he (by simp)
    rw [h1, h2]
    exact ⟨preconfig_filter_load pf env, preconfig_filter_load pf env⟩

/-- Witness for C3: a concrete failing environment (missing path, non-root
caller) issues no mutating load call. -/
theorem c3_witness :
    (PF.EnableLock pfBase envStatFailNonRoot).2.filter isLoadCall = []
  ∧ (PF.DisableLock pfBase envStatFailNonRoot).2.filter isLoadCall = [] :=
  (c3_theorem pfBase envStatFailNonRoot).2
    (Fatal.statFailed "/etc/pf.conf") rfl

end Netlock
